import Mathlib

/-!
Verification of the `peace` session / chat fan-out core.

The Rust sources under `core/services` are embedded shallowly:
pure manipulations become Lean functions, the service state (session
registry, per-session packet queues, channel message logs) becomes an
explicit state record threaded through the operations, and machine
integers become `Nat` / `Int` (no claim here depends on wrap-around).
Containers from the `tools` / `peace_pb` support crates (the
multi-indexed `UserStore`, the channel message queue, the cached atomic)
are not part of the provided sources; they are modelled from the
specification and marked as such in their doc comments.
-/

/-! ## Packets and the per-session outbound queue
    (src/core/services/src/bancho_state/components.rs) -/

/-- `Packet`: tagged variant of owned bytes (`Data(Vec<u8>)`) versus
shared bytes (`Ptr(Arc<Vec<u8>>)`).  Bytes are modelled as `List Nat`.
The `Arc` adds only sharing, not observable structure, so both
constructors carry the byte list. -/
inductive Packet : Type
  | data (bytes : List Nat)
  | ptr (bytes : List Nat)
  deriving Repr, DecidableEq

/-- `Packet::new`: wrap owned bytes. -/
def Packet.new (bytes : List Nat) : Packet := Packet.data bytes

/-- `Packet::new_ptr`: wrap bytes into the shared (`Arc`) form. -/
def Packet.new_ptr (bytes : List Nat) : Packet := Packet.ptr bytes

/-- `impl IntoIterator for Packet`: iterating an owned packet yields its
bytes; iterating a shared packet unwraps (or clones) the shared vector
and yields the same bytes. -/
def packetBytes : Packet → List Nat
  | Packet.data bytes => bytes
  | Packet.ptr bytes => bytes

/-- A `BanchoPacketsQueue` is a `VecDeque<Packet>`; head = front. -/
abbrev PacketQueue : Type := List Packet

/-- `BanchoPacketsQueue::push_packet`: `push_back`, i.e. append at the
tail.  (The Rust function also returns the new length; the length is
recoverable from the returned queue and is not modelled separately.) -/
def pushPacket (q : PacketQueue) (p : Packet) : PacketQueue := q ++ [p]

/-- `BanchoPacketsQueue::enqueue_packets`: `extend`, i.e. append the
given packets at the tail in argument order. -/
def enqueuePackets (q : PacketQueue) (ps : List Packet) : PacketQueue :=
  q ++ ps

/-- `BanchoPacketsQueue::dequeue_packet`: `pop_front`. -/
def dequeuePacket (q : PacketQueue) : Option Packet × PacketQueue :=
  match q with
  | [] => (none, [])
  | p :: rest => (some p, rest)

/-- `BanchoPacketsQueue::dequeue_all_packets`: repeatedly `pop_front`
and extend a buffer with every popped packet's bytes; returns the
buffer together with the queue left behind (always empty). -/
def dequeueAllPackets (q : PacketQueue) : List Nat × PacketQueue :=
  match q with
  | [] => ([], [])
  | p :: rest =>
    let r := dequeueAllPackets rest
    (packetBytes p ++ r.1, r.2)

theorem dequeueAllPackets_eq (q : PacketQueue) :
    dequeueAllPackets q = ((q.map packetBytes).flatten, []) := by
  induction q with
  | nil => rfl
  | cons p rest ih => simp [dequeueAllPackets, ih]

/-- C1: `dequeue_all_packets` returns exactly the concatenation of the
bytes of all queued packets in push order and leaves the queue empty;
two packets pushed in order (via `push_packet` / `enqueue_packets`)
contribute their bytes to the drained blob in that relative order. -/
theorem dequeue_all_concatenates_in_push_order :
    (∀ q : PacketQueue, dequeueAllPackets q = ((q.map packetBytes).flatten, []))
    ∧ (∀ (q : PacketQueue) (p₁ p₂ : Packet),
        dequeueAllPackets (pushPacket (pushPacket q p₁) p₂)
          = ((q.map packetBytes).flatten ++ packetBytes p₁ ++ packetBytes p₂,
              []))
    ∧ (∀ (q : PacketQueue) (ps : List Packet),
        dequeueAllPackets (enqueuePackets q ps)
          = ((q.map packetBytes).flatten ++ (ps.map packetBytes).flatten,
              [])) := by
  refine ⟨dequeueAllPackets_eq, ?_, ?_⟩
  · intro q p₁ p₂
    simp [dequeueAllPackets_eq, pushPacket]
  · intro q ps
    simp [dequeueAllPackets_eq, enqueuePackets]

/-- C8: the owned packet `Packet::Data(v)` (`Packet::new`) and the
shared packet `Packet::new_ptr(v)` yield exactly the byte sequence `v`
when iterated, and draining a queue produces the same blob regardless
of which of the two representations was enqueued. -/
theorem packet_owned_shared_equivalent :
    (∀ v : List Nat, packetBytes (Packet.new v) = v)
    ∧ (∀ v : List Nat, packetBytes (Packet.new_ptr v) = v)
    ∧ (∀ vs : List (List Nat),
        (dequeueAllPackets (vs.map Packet.new)).1
          = (dequeueAllPackets (vs.map Packet.new_ptr)).1) := by
  refine ⟨fun _ => rfl, fun _ => rfl, ?_⟩
  intro vs
  simp [dequeueAllPackets_eq, Packet.new, Packet.new_ptr, Function.comp_def,
    packetBytes]

/-! ## Bancho-state data model
    (src/core/services/src/bancho_state/components.rs) -/

/-- `GameMode` enum with its explicit discriminants. -/
inductive GameMode : Type
  | standard | taiko | fruits | mania
  | standardRelax | taikoRelax | fruitsRelax | standardAutopilot
  | standardScoreV2
  deriving Repr, DecidableEq

/-- `GameMode::val` (`*self as u8`). -/
def GameMode.val : GameMode → Nat
  | .standard => 0
  | .taiko => 1
  | .fruits => 2
  | .mania => 3
  | .standardRelax => 4
  | .taikoRelax => 5
  | .fruitsRelax => 6
  | .standardAutopilot => 8
  | .standardScoreV2 => 12

/-- `GameMode::from_i32` (derived `Primitive`): decode the discriminant,
`none` on any other value. -/
def GameMode.fromI32 (i : Int) : Option GameMode :=
  if i = 0 then some .standard
  else if i = 1 then some .taiko
  else if i = 2 then some .fruits
  else if i = 3 then some .mania
  else if i = 4 then some .standardRelax
  else if i = 5 then some .taikoRelax
  else if i = 6 then some .fruitsRelax
  else if i = 8 then some .standardAutopilot
  else if i = 12 then some .standardScoreV2
  else none

/-- `UserOnlineStatus` enum (discriminants 0..13). -/
inductive UserOnlineStatus : Type
  | idle | afk | playing | editing | modding | multiplayer | watching
  | unknown | testing | submitting | paused | lobby | multiplaying | direct
  deriving Repr, DecidableEq

/-- `UserOnlineStatus::val` (`*self as u8`). -/
def UserOnlineStatus.val : UserOnlineStatus → Nat
  | .idle => 0
  | .afk => 1
  | .playing => 2
  | .editing => 3
  | .modding => 4
  | .multiplayer => 5
  | .watching => 6
  | .unknown => 7
  | .testing => 8
  | .submitting => 9
  | .paused => 10
  | .lobby => 11
  | .multiplaying => 12
  | .direct => 13

/-- `UserOnlineStatus::from_i32` (derived `Primitive`). -/
def UserOnlineStatus.fromI32 (i : Int) : Option UserOnlineStatus :=
  if i = 0 then some .idle
  else if i = 1 then some .afk
  else if i = 2 then some .playing
  else if i = 3 then some .editing
  else if i = 4 then some .modding
  else if i = 5 then some .multiplayer
  else if i = 6 then some .watching
  else if i = 7 then some .unknown
  else if i = 8 then some .testing
  else if i = 9 then some .submitting
  else if i = 10 then some .paused
  else if i = 11 then some .lobby
  else if i = 12 then some .multiplaying
  else if i = 13 then some .direct
  else none

/-- `PresenceFilter` enum (discriminants 0, 1, 2). -/
inductive PresenceFilter : Type
  | none | all | friends
  deriving Repr, DecidableEq

/-- `PresenceFilter::from_i32` (derived `Primitive`). -/
def PresenceFilter.fromI32 (i : Int) : Option PresenceFilter :=
  if i = 0 then some .none
  else if i = 1 then some .all
  else if i = 2 then some .friends
  else Option.none

/-- `ModeStats` (per-mode competitive metrics).  `U32`/`U64` atomic
cells become `Nat`; the `F32` cells (`pp_v2`, `accuracy`) become `Int`
(no claim inspects floating-point arithmetic; the stored value is only
copied into the stats frame). -/
structure ModeStats where
  rank : Nat
  pp_v2 : Int
  accuracy : Int
  total_hits : Nat
  total_score : Nat
  ranked_score : Nat
  playcount : Nat
  playtime : Nat
  max_combo : Nat
  deriving Repr, DecidableEq

/-- `BanchoStatus`: live gameplay status; each field is an atomic cell
in the source, modelled as a plain field.  `mods` is the raw `u32`
bitmask (`Mods::from(u32)` preserves the bits). -/
structure BanchoStatus where
  online_status : UserOnlineStatus
  description : String
  beatmap_id : Nat
  beatmap_md5 : String
  mods : Nat
  mode : GameMode
  deriving Repr, DecidableEq

/-- `BanchoStatus::update_all`: set all six cells to the given values. -/
def BanchoStatus.update_all (_ : BanchoStatus) (online_status : UserOnlineStatus)
    (description : String) (beatmap_id : Nat) (beatmap_md5 : String)
    (mods : Nat) (mode : GameMode) : BanchoStatus :=
  { online_status := online_status, description := description,
    beatmap_id := beatmap_id, beatmap_md5 := beatmap_md5,
    mods := mods, mode := mode }

/-- `UserModeStatSets`: nine optional per-mode stat records. -/
structure UserModeStatSets where
  standard : Option ModeStats := Option.none
  taiko : Option ModeStats := Option.none
  fruits : Option ModeStats := Option.none
  mania : Option ModeStats := Option.none
  standard_relax : Option ModeStats := Option.none
  taiko_relax : Option ModeStats := Option.none
  fruits_relax : Option ModeStats := Option.none
  standard_autopilot : Option ModeStats := Option.none
  standard_score_v2 : Option ModeStats := Option.none
  deriving Repr, DecidableEq

/-- A bancho session (`Session<BanchoExtend>`).  The opaque `Ulid`
session id is modelled as a `Nat`; identity, status and the outbound
queue are the fields the verified operations touch. -/
structure BSession where
  id : Nat
  user_id : Int
  username : String
  username_unicode : Option String
  presence_filter : PresenceFilter := PresenceFilter.none
  bancho_status : BanchoStatus
  mode_stat_sets : UserModeStatSets := {}
  queue : PacketQueue := []
  deriving Repr, DecidableEq

/-- `Session::mode_stats`: select the stat record of the currently
active game mode. -/
def BSession.mode_stats (s : BSession) : Option ModeStats :=
  match s.bancho_status.mode with
  | .standard => s.mode_stat_sets.standard
  | .taiko => s.mode_stat_sets.taiko
  | .fruits => s.mode_stat_sets.fruits
  | .mania => s.mode_stat_sets.mania
  | .standardRelax => s.mode_stat_sets.standard_relax
  | .taikoRelax => s.mode_stat_sets.taiko_relax
  | .fruitsRelax => s.mode_stat_sets.fruits_relax
  | .standardAutopilot => s.mode_stat_sets.standard_autopilot
  | .standardScoreV2 => s.mode_stat_sets.standard_score_v2

/-- Modelled from the spec: the `bancho_packets` wire codec is an
external library (spec §1, §6: "the repository consumes a packet codec
library"); frames are length-prefixed little-endian records.  The codec
is modelled as a concrete flattening of the field values — enough to
identify which frame, for which user, with which field values, was
placed in a queue.  Encoding of one string field. -/
def encStr (s : String) : List Nat :=
  s.length :: s.data.map Char.toNat

/-- Modelled from the spec: signed-integer field encoding of the
modelled codec (kept injective by storing both clamps). -/
def encInt (i : Int) : List Nat :=
  [i.toNat, (-i).toNat]

/-- Modelled from the spec: `bancho_packets::server::UserStats::pack`.
Frame tag 11 followed by the packed fields, in the argument order of
the library call in `Session::user_stats_packet`. -/
def UserStats.pack (user_id : Int) (online_status : Nat)
    (description beatmap_md5 : String) (mods : Nat) (mode : Nat)
    (beatmap_id : Int) (ranked_score : Int) (accuracy : Int)
    (playcount : Int) (total_score : Int) (rank : Int) (pp : Int) :
    List Nat :=
  11 :: encInt user_id ++ [online_status] ++ encStr description
    ++ encStr beatmap_md5 ++ [mods, mode] ++ encInt beatmap_id
    ++ encInt ranked_score ++ encInt accuracy ++ encInt playcount
    ++ encInt total_score ++ encInt rank ++ encInt pp

/-- Modelled from the spec: `bancho_packets::server::UserPresence::pack`
(frame tag 83).  The longitude/latitude `f32` fields are modelled as
`Int` (no claim computes with them). -/
def UserPresence.pack (user_id : Int) (username : String)
    (utc_offset : Nat) (country : Nat) (privileges : Nat)
    (longitude latitude : Int) (rank : Int) : List Nat :=
  83 :: encInt user_id ++ encStr username ++ [utc_offset, country, privileges]
    ++ encInt longitude ++ encInt latitude ++ encInt rank

/-- Modelled from the spec:
`bancho_packets::server::ChannelInfo::pack` (frame tag 65). -/
def ChannelInfoPacket.pack (name description : String) (counter : Int) :
    List Nat :=
  65 :: encStr name ++ encStr description ++ encInt counter

/-- `Session::user_stats_packet`: pack the session's current status and
mode stats into a `UserStats` frame. -/
def BSession.user_stats_packet (s : BSession) : List Nat :=
  let status := s.bancho_status
  let stats := s.mode_stats
  UserStats.pack s.user_id status.online_status.val status.description
    status.beatmap_md5 status.mods status.mode.val
    (Int.ofNat status.beatmap_id)
    (Int.ofNat ((stats.map fun t => t.ranked_score).getD 0))
    ((stats.map fun t => t.accuracy).getD 0)
    (Int.ofNat ((stats.map fun t => t.playcount).getD 0))
    (Int.ofNat ((stats.map fun t => t.total_score).getD 0))
    (Int.ofNat ((stats.map fun t => t.rank).getD 0))
    ((stats.map fun t => t.pp_v2).getD 0)

/-- `Session::user_presence_packet`.  The connection-info longitude and
latitude are not stored in the verified model (no claim reads them);
they are packed as 0, matching a session whose location is the origin. -/
def BSession.user_presence_packet (s : BSession) : List Nat :=
  UserPresence.pack s.user_id s.username 0 0 1 0 0
    (Int.ofNat ((s.mode_stats.map fun t => t.rank).getD 0))

/-! ## Queries, targets and the session registry
    (peace_pb query enums; `UserStore` from the spec §4.1) -/

/-- `UserQuery`: one of session id, user id, username, unicode
username. -/
inductive UserQuery : Type
  | sessionId (t : Nat)
  | userId (t : Int)
  | username (t : String)
  | usernameUnicode (t : String)
  deriving Repr, DecidableEq

/-- `BanchoPacketTarget`: the `UserQuery` variants plus the two
channel-addressed variants. -/
inductive BanchoPacketTarget : Type
  | sessionId (t : Nat)
  | userId (t : Int)
  | username (t : String)
  | usernameUnicode (t : String)
  | channelId (t : Nat)
  | channelName (t : String)
  deriving Repr, DecidableEq

/-- `TryInto<UserQuery> for BanchoPacketTarget`: the four user-addressed
variants convert; the channel-addressed variants fail. -/
def BanchoPacketTarget.tryIntoUserQuery : BanchoPacketTarget → Option UserQuery
  | .sessionId t => some (.sessionId t)
  | .userId t => some (.userId t)
  | .username t => some (.username t)
  | .usernameUnicode t => some (.usernameUnicode t)
  | .channelId _ => Option.none
  | .channelName _ => Option.none

/-- `Into<BanchoPacketTarget> for UserQuery` (used when a resolved
target is handed back to `enqueue_bancho_packets`). -/
def UserQuery.intoTarget : UserQuery → BanchoPacketTarget
  | .sessionId t => .sessionId t
  | .userId t => .userId t
  | .username t => .username t
  | .usernameUnicode t => .usernameUnicode t

/-- `SessionFilter::session_is_target`: does this session match the
packet target?  Channel-addressed targets match no session (the final
wildcard arm). -/
def sessionIsTarget (s : BSession) (tgt : BanchoPacketTarget) : Bool :=
  match tgt with
  | .sessionId t => s.id == t
  | .userId t => s.user_id == t
  | .username t => s.username == t
  | .usernameUnicode t => s.username_unicode == some t
  | .channelId _ => false
  | .channelName _ => false

/-- Does a session answer to a `UserQuery`?  Mirrors the per-variant
index lookup (`indexes.user_id.get`, `indexes.username.get`, …). -/
def bQueryMatches (s : BSession) : UserQuery → Bool
  | .sessionId t => s.id == t
  | .userId t => s.user_id == t
  | .username t => s.username == t
  | .usernameUnicode t => s.username_unicode == some t

/-- Modelled from the spec: `UserStore::get` / `UserSessions::get_inner`
(crate `core/services/src/users`, not under the provided sources).
Spec §4.1: four secondary indexes point at the same records, so the
registry is modelled as the list of its records and a query resolves to
the record answering to the queried key. -/
def bsGet (ss : List BSession) (q : UserQuery) : Option BSession :=
  ss.find? (fun s => bQueryMatches s q)

/-- Append a packet to the queue of every session with the given
session id (a `session.push_packet(..)` through the registry handle). -/
def pushToSession (ss : List BSession) (sid : Nat) (p : Packet) :
    List BSession :=
  ss.map fun s => if s.id == sid then { s with queue := s.queue ++ [p] } else s

/-- Empty the queue of every session with the given session id (the
state a drain leaves behind). -/
def clearSessionQueue (ss : List BSession) (sid : Nat) : List BSession :=
  ss.map fun s => if s.id == sid then { s with queue := [] } else s

/-- The bancho-state service's local state: the session registry. -/
structure BState where
  sessions : List BSession
  deriving Repr, DecidableEq

/-- `BanchoStateError` kinds the embedded operations produce. -/
inductive BErr : Type
  | invalidArgument
  | sessionNotExists
  deriving Repr, DecidableEq

/-- Outcome of a local service call: `Ok(value)` with the post state,
`Err(kind)` with the (unchanged) state, or a `todo!()` panic. -/
inductive Outcome (α : Type) : Type
  | ok (a : α) (st : BState)
  | err (e : BErr) (st : BState)
  | panic
  deriving Repr, DecidableEq

/-- Did the call return `Ok`? -/
def Outcome.isOk {α : Type} : Outcome α → Bool
  | .ok _ _ => true
  | _ => false

/-! ## Bancho-state service operations
    (src/core/services/src/bancho_state/services/bancho_state.rs,
    `Local` branches) -/

/-- `broadcast_bancho_packets` (Local): wrap the bytes in a shared
packet and push it onto every session's queue. -/
def broadcastBanchoPackets (st : BState) (packets : List Nat) :
    Outcome Unit :=
  .ok () ⟨st.sessions.map fun s => { s with queue := s.queue ++ [Packet.ptr packets] }⟩

/-- `enqueue_bancho_packets` (Local): missing target is
`InvalidArgument`; a user-addressed target pushes a shared packet onto
the addressed session's queue (`SessionNotExists` when the query
resolves to nothing); a channel-addressed target reaches
`todo!("channel handle")`. -/
def enqueueBanchoPackets (st : BState) (target : Option BanchoPacketTarget)
    (packets : List Nat) : Outcome Unit :=
  match target with
  | Option.none => .err .invalidArgument st
  | some t =>
    match t.tryIntoUserQuery with
    | some q =>
      match bsGet st.sessions q with
      | Option.none => .err .sessionNotExists st
      | some s => .ok () ⟨pushToSession st.sessions s.id (Packet.ptr packets)⟩
    | Option.none => .panic

/-- `dequeue_bancho_packets` (Local): drain the addressed session's
queue into one byte blob; a channel-addressed target reaches
`todo!("channel handle")`. -/
def dequeueBanchoPackets (st : BState) (target : Option BanchoPacketTarget) :
    Outcome (List Nat) :=
  match target with
  | Option.none => .err .invalidArgument st
  | some t =>
    match t.tryIntoUserQuery with
    | some q =>
      match bsGet st.sessions q with
      | Option.none => .err .sessionNotExists st
      | some s =>
        .ok (dequeueAllPackets s.queue).1 ⟨clearSessionQueue st.sessions s.id⟩
    | Option.none => .panic

/-- The `channel_info` payload of `ChannelUpdateNotifyRequest`
(peace_pb `ChannelInfo` message: name, optional description, optional
counter whose `bancho` field is the member count). -/
structure ChannelInfoMsg where
  name : String
  description : Option String
  counter : Option Int
  deriving Repr, DecidableEq

/-- The notify-target loop of `channel_update_notify`: resolve each
query; push the shared packet to resolved sessions, collect unresolved
queries into `fails` in order. -/
def notifyLoop (ss : List BSession) (pkt : List Nat) :
    List UserQuery → List UserQuery → List BSession × List UserQuery
  | [], fails => (ss, fails)
  | q :: rest, fails =>
    match bsGet ss q with
    | some s => notifyLoop (pushToSession ss s.id (Packet.ptr pkt)) pkt rest fails
    | Option.none => notifyLoop ss pkt rest (fails ++ [q])

/-- `channel_update_notify` (Local): build the `ChannelInfo` frame
(missing `channel_info` or missing `counter` is `InvalidArgument`), then
push it to the listed targets — or to every session when no target list
is given — and report the unresolved targets. -/
def channelUpdateNotify (st : BState)
    (notify_targets : Option (List UserQuery))
    (channel_info : Option ChannelInfoMsg) :
    Outcome (List UserQuery) :=
  match channel_info with
  | Option.none => .err .invalidArgument st
  | some info =>
    match info.counter with
    | Option.none => .err .invalidArgument st
    | some counter =>
      let pkt := ChannelInfoPacket.pack info.name (info.description.getD "")
        counter
      match notify_targets with
      | some targets =>
        let r := notifyLoop st.sessions pkt targets []
        .ok r.2 ⟨r.1⟩
      | Option.none =>
        .ok [] ⟨st.sessions.map fun s =>
          { s with queue := s.queue ++ [Packet.ptr pkt] }⟩

/-- The aggregation loop of `batch_send_user_stats_packet`: resolve
each query against the registry, skip unresolved queries, skip sessions
that *are* the recipient, and concatenate the remaining sessions' stats
frames. -/
def statsLoop (ss : List BSession) (tgt : BanchoPacketTarget) :
    List UserQuery → List Nat
  | [] => []
  | q :: rest =>
    match bsGet ss q with
    | Option.none => statsLoop ss tgt rest
    | some s =>
      if sessionIsTarget s tgt then statsLoop ss tgt rest
      else s.user_stats_packet ++ statsLoop ss tgt rest

/-- `batch_send_user_stats_packet` (Local): empty query list returns
success immediately; otherwise a missing `to` is `InvalidArgument`, the
aggregated blob is built by `statsLoop` and enqueued to `to`. -/
def batchSendUserStatsPacket (st : BState) (user_queries : List UserQuery)
    (tgt : Option BanchoPacketTarget) : Outcome Unit :=
  if user_queries.isEmpty then .ok () st
  else
    match tgt with
    | Option.none => .err .invalidArgument st
    | some tgt =>
      enqueueBanchoPackets st (some tgt) (statsLoop st.sessions tgt user_queries)

/-- The aggregation loop of `batch_send_presences` (same shape as
`statsLoop`, with presence frames). -/
def presencesLoop (ss : List BSession) (tgt : BanchoPacketTarget) :
    List UserQuery → List Nat
  | [] => []
  | q :: rest =>
    match bsGet ss q with
    | Option.none => presencesLoop ss tgt rest
    | some s =>
      if sessionIsTarget s tgt then presencesLoop ss tgt rest
      else s.user_presence_packet ++ presencesLoop ss tgt rest

/-- `batch_send_presences` (Local). -/
def batchSendPresences (st : BState) (user_queries : List UserQuery)
    (tgt : Option BanchoPacketTarget) : Outcome Unit :=
  if user_queries.isEmpty then .ok () st
  else
    match tgt with
    | Option.none => .err .invalidArgument st
    | some tgt =>
      enqueueBanchoPackets st (some tgt)
        (presencesLoop st.sessions tgt user_queries)

/-- The aggregation loop of `send_all_presences`: walk every session in
the registry, skip the recipient, concatenate presence frames. -/
def allPresencesLoop (tgt : BanchoPacketTarget) : List BSession → List Nat
  | [] => []
  | s :: rest =>
    if sessionIsTarget s tgt then allPresencesLoop tgt rest
    else s.user_presence_packet ++ allPresencesLoop tgt rest

/-- `send_all_presences` (Local): missing `to` is `InvalidArgument`;
otherwise enqueue the aggregated presences blob to `to`. -/
def sendAllPresences (st : BState) (tgt : Option BanchoPacketTarget) :
    Outcome Unit :=
  match tgt with
  | Option.none => .err .invalidArgument st
  | some tgt =>
    enqueueBanchoPackets st (some tgt) (allPresencesLoop tgt st.sessions)

/-- `update_presence_filter` (Local): missing query is
`InvalidArgument`; an undecodable `presence_filter` integer is
`InvalidArgument` (checked before the session lookup); otherwise set
the session's filter cell. -/
def updatePresenceFilter (st : BState) (user_query : Option UserQuery)
    (presence_filter : Int) : Outcome Unit :=
  match user_query with
  | Option.none => .err .invalidArgument st
  | some q =>
    match PresenceFilter.fromI32 presence_filter with
    | Option.none => .err .invalidArgument st
    | some f =>
      match bsGet st.sessions q with
      | Option.none => .err .sessionNotExists st
      | some s =>
        .ok () ⟨st.sessions.map fun t =>
          if t.id == s.id then { t with presence_filter := f } else t⟩

/-- `update_user_bancho_status` (Local): decode `online_status` and
`mode` with `unwrap_or_default` (defaults `Idle` / `Standard`), set all
six status cells via `BanchoStatus::update_all`, then broadcast the
session's freshly built stats frame to every session. -/
def updateUserBanchoStatus (st : BState) (user_query : Option UserQuery)
    (online_status : Int) (description : String) (beatmap_md5 : String)
    (mods : Nat) (mode : Int) (beatmap_id : Nat) : Outcome Unit :=
  match user_query with
  | Option.none => .err .invalidArgument st
  | some q =>
    match bsGet st.sessions q with
    | Option.none => .err .sessionNotExists st
    | some s =>
      let os := (UserOnlineStatus.fromI32 online_status).getD .idle
      let md := (GameMode.fromI32 mode).getD .standard
      let newStatus := s.bancho_status.update_all os description beatmap_id
        beatmap_md5 mods md
      let s' := { s with bancho_status := newStatus }
      let st₁ : BState := ⟨st.sessions.map fun t =>
        if t.id == s.id then { t with bancho_status := newStatus } else t⟩
      broadcastBanchoPackets st₁ s'.user_stats_packet

/-! ## Registry helper lemmas -/

/-- A session transformer that leaves every lookup key (session id,
user id, username, unicode username) unchanged. -/
def keysPreserved (f : BSession → BSession) : Prop :=
  ∀ s : BSession, (f s).id = s.id ∧ (f s).user_id = s.user_id
    ∧ (f s).username = s.username
    ∧ (f s).username_unicode = s.username_unicode

theorem bQueryMatches_of_keysPreserved {f : BSession → BSession}
    (hf : keysPreserved f) (s : BSession) (q : UserQuery) :
    bQueryMatches (f s) q = bQueryMatches s q := by
  obtain ⟨h1, h2, h3, h4⟩ := hf s
  cases q <;> simp [bQueryMatches, h1, h2, h3, h4]

theorem sessionIsTarget_of_keysPreserved {f : BSession → BSession}
    (hf : keysPreserved f) (s : BSession) (tgt : BanchoPacketTarget) :
    sessionIsTarget (f s) tgt = sessionIsTarget s tgt := by
  obtain ⟨h1, h2, h3, h4⟩ := hf s
  cases tgt <;> simp [sessionIsTarget, h1, h2, h3, h4]

theorem bsGet_map_keyed {f : BSession → BSession} (hf : keysPreserved f)
    (ss : List BSession) (q : UserQuery) :
    bsGet (ss.map f) q = (bsGet ss q).map f := by
  induction ss with
  | nil => rfl
  | cons a rest ih =>
    simp only [bsGet, List.map_cons, List.find?]
    rw [bQueryMatches_of_keysPreserved hf]
    cases bQueryMatches a q <;> simp_all [bsGet]

theorem keysPreserved_pushToSession (sid : Nat) (p : Packet) :
    keysPreserved (fun s =>
      if s.id == sid then { s with queue := s.queue ++ [p] } else s) := by
  intro s
  by_cases h : s.id == sid <;> simp [h]

/-! ## C10: empty batch sends are no-ops -/

/-- C10: `batch_send_user_stats_packet` and `batch_send_presences`
with an empty `user_queries` list return success immediately and leave
the state untouched, even when `to` is missing — whereas a non-empty
list with a missing `to` is rejected with `InvalidArgument`. -/
theorem batch_send_empty_queries_noop :
    ∀ st : BState,
      (∀ tgt : Option BanchoPacketTarget,
        batchSendUserStatsPacket st [] tgt = .ok () st
        ∧ batchSendPresences st [] tgt = .ok () st)
      ∧ (∀ (q : UserQuery) (qs : List UserQuery),
        batchSendUserStatsPacket st (q :: qs) Option.none
            = .err .invalidArgument st
        ∧ batchSendPresences st (q :: qs) Option.none
            = .err .invalidArgument st) := by
  intro st
  constructor
  · intro tgt
    exact ⟨rfl, rfl⟩
  · intro q qs
    exact ⟨rfl, rfl⟩

/-! ## C3: batch/all sends never echo to the recipient -/

/-- The sessions whose stats frames make up the
`batch_send_user_stats_packet` blob: the resolved queries, minus every
session that *is* the recipient. -/
def batchContributors (ss : List BSession) (ts : List UserQuery)
    (tgt : BanchoPacketTarget) : List BSession :=
  (ts.filterMap (bsGet ss)).filter fun s => !sessionIsTarget s tgt

theorem statsLoop_eq_contributors (ss : List BSession)
    (tgt : BanchoPacketTarget) (ts : List UserQuery) :
    statsLoop ss tgt ts
      = (batchContributors ss ts tgt).flatMap BSession.user_stats_packet := by
  induction ts with
  | nil => rfl
  | cons q rest ih =>
    simp only [statsLoop, batchContributors, List.filterMap_cons]
    cases hq : bsGet ss q with
    | none => simpa [batchContributors] using ih
    | some s =>
      by_cases ht : sessionIsTarget s tgt
        <;> simp_all [batchContributors, List.filter_cons]

theorem presencesLoop_eq_contributors (ss : List BSession)
    (tgt : BanchoPacketTarget) (ts : List UserQuery) :
    presencesLoop ss tgt ts
      = (batchContributors ss ts tgt).flatMap BSession.user_presence_packet := by
  induction ts with
  | nil => rfl
  | cons q rest ih =>
    simp only [presencesLoop, batchContributors, List.filterMap_cons]
    cases hq : bsGet ss q with
    | none => simpa [batchContributors] using ih
    | some s =>
      by_cases ht : sessionIsTarget s tgt
        <;> simp_all [batchContributors, List.filter_cons]

theorem allPresencesLoop_eq (tgt : BanchoPacketTarget) (ss : List BSession) :
    allPresencesLoop tgt ss
      = (ss.filter fun s => !sessionIsTarget s tgt).flatMap
          BSession.user_presence_packet := by
  induction ss with
  | nil => rfl
  | cons s rest ih =>
    by_cases h : sessionIsTarget s tgt
      <;> simp [allPresencesLoop, List.filter_cons, h, ih]

/-- C3: for `batch_send_user_stats_packet`, `batch_send_presences` and
`send_all_presences` with recipient `tgt`, every session for which
`SessionFilter::session_is_target` holds is skipped when building the
aggregated blob, for every list of user queries: the blobs are built
from exactly the contributor sessions, and every contributor fails the
target test. -/
theorem batch_send_skips_recipient :
    ∀ (ss : List BSession) (tgt : BanchoPacketTarget) (ts : List UserQuery),
      ((batchContributors ss ts tgt).all fun s => !sessionIsTarget s tgt)
      ∧ statsLoop ss tgt ts
          = (batchContributors ss ts tgt).flatMap BSession.user_stats_packet
      ∧ presencesLoop ss tgt ts
          = (batchContributors ss ts tgt).flatMap BSession.user_presence_packet
      ∧ ((ss.filter fun s => !sessionIsTarget s tgt).all
            fun s => !sessionIsTarget s tgt)
      ∧ allPresencesLoop tgt ss
          = (ss.filter fun s => !sessionIsTarget s tgt).flatMap
              BSession.user_presence_packet := by
  intro ss tgt ts
  refine ⟨?_, statsLoop_eq_contributors ss tgt ts,
    presencesLoop_eq_contributors ss tgt ts, ?_,
    allPresencesLoop_eq tgt ss⟩
  · rw [List.all_eq_true]
    intro s hs
    rw [batchContributors, List.mem_filter] at hs
    exact hs.2
  · rw [List.all_eq_true]
    intro s hs
    rw [List.mem_filter] at hs
    exact hs.2

/-! ## C4: channel_update_notify accounting -/

/-- How many of the listed notify targets resolve to the session with
the given session id. -/
def resolvedCount (ss : List BSession) (ts : List UserQuery) (i : Nat) :
    Nat :=
  ts.countP fun q =>
    match bsGet ss q with
    | some s => s.id == i
    | Option.none => false

theorem pushToSession_eq_map (ss : List BSession) (sid : Nat) (p : Packet) :
    pushToSession ss sid p
      = ss.map fun s =>
          if s.id == sid then { s with queue := s.queue ++ [p] } else s := rfl

theorem bsGet_pushToSession (ss : List BSession) (sid : Nat) (p : Packet)
    (q : UserQuery) :
    bsGet (pushToSession ss sid p) q
      = (bsGet ss q).map fun s =>
          if s.id == sid then { s with queue := s.queue ++ [p] } else s := by
  rw [pushToSession_eq_map]
  exact bsGet_map_keyed (keysPreserved_pushToSession sid p) ss q

theorem resolvedCount_pushToSession (ss : List BSession) (sid : Nat)
    (p : Packet) (ts : List UserQuery) (i : Nat) :
    resolvedCount (pushToSession ss sid p) ts i = resolvedCount ss ts i := by
  unfold resolvedCount
  apply List.countP_congr
  intro q _
  rw [bsGet_pushToSession]
  cases hq : bsGet ss q with
  | none => rfl
  | some s =>
    simp only [Option.map_some']
    by_cases h : s.id = sid
    · simp [h]
    · simp [h]

theorem isNone_bsGet_pushToSession (ss : List BSession) (sid : Nat)
    (p : Packet) (q : UserQuery) :
    (bsGet (pushToSession ss sid p) q).isNone = (bsGet ss q).isNone := by
  rw [bsGet_pushToSession]
  cases bsGet ss q <;> rfl

theorem notifyLoop_spec (pkt : List Nat) :
    ∀ (ts : List UserQuery) (ss : List BSession) (fails : List UserQuery),
      notifyLoop ss pkt ts fails
        = (ss.map fun s =>
            { s with queue := s.queue
                ++ List.replicate (resolvedCount ss ts s.id) (Packet.ptr pkt) },
           fails ++ ts.filter fun q => (bsGet ss q).isNone) := by
  intro ts
  induction ts with
  | nil =>
    intro ss fails
    simp [notifyLoop, resolvedCount]
  | cons q rest ih =>
    intro ss fails
    simp only [notifyLoop]
    cases hq : bsGet ss q with
    | none =>
      rw [ih]
      simp only [resolvedCount, List.countP_cons, hq, List.filter_cons]
      simp [hq, List.append_assoc]
    | some s =>
      show notifyLoop (pushToSession ss s.id (Packet.ptr pkt)) pkt rest fails
        = _
      rw [ih]
      have hmap : (pushToSession ss s.id (Packet.ptr pkt)).map
          (fun t => { t with
            queue := t.queue ++ List.replicate
              (resolvedCount (pushToSession ss s.id (Packet.ptr pkt)) rest
                t.id)
              (Packet.ptr pkt) })
          = ss.map fun t => { t with
              queue := t.queue ++ List.replicate
                (resolvedCount ss (q :: rest) t.id) (Packet.ptr pkt) } := by
        simp only [resolvedCount_pushToSession]
        rw [pushToSession_eq_map, List.map_map]
        apply List.map_congr_left
        intro t _
        simp only [Function.comp_apply]
        by_cases hid : t.id = s.id
        · have hc : resolvedCount ss (q :: rest) t.id
              = resolvedCount ss rest t.id + 1 := by
            simp [resolvedCount, List.countP_cons, hq, hid]
          have hif : (t.id == s.id) = true := by simp [hid]
          simp [hif, hc, List.replicate_succ, List.append_assoc]
        · have hc : resolvedCount ss (q :: rest) t.id
              = resolvedCount ss rest t.id := by
            simp [resolvedCount, List.countP_cons, hq, beq_iff_eq,
              Ne.symm hid]
          have hif : (t.id == s.id) = false := by simp [hid]
          simp [hif, hc]
      have hfilterPush :
          rest.filter (fun x =>
            (bsGet (pushToSession ss s.id (Packet.ptr pkt)) x).isNone)
          = rest.filter fun x => (bsGet ss x).isNone := by
        apply List.filter_congr
        intro x _
        rw [isNone_bsGet_pushToSession]
      have hfilterCons :
          (q :: rest).filter (fun x => (bsGet ss x).isNone)
            = rest.filter fun x => (bsGet ss x).isNone := by
        simp [List.filter_cons, hq]
      rw [hmap, hfilterPush, hfilterCons]

/-- C4: `channel_update_notify` with `notify_targets = None` pushes the
built `ChannelInfo` packet exactly once onto the queue of every session
in the registry and returns an empty fails list; with an explicit
target list, every session receives one push per query resolving to it
and exactly the unresolved queries are returned as fails. -/
theorem channel_update_notify_push_accounting
    (st : BState) (info : ChannelInfoMsg) (cnt : Int)
    (hc : info.counter = some cnt) :
    (channelUpdateNotify st Option.none (some info)
        = .ok [] ⟨st.sessions.map fun s =>
            { s with
              queue := s.queue ++ [Packet.ptr
                (ChannelInfoPacket.pack info.name (info.description.getD "")
                  cnt)] }⟩)
    ∧ ∀ targets : List UserQuery,
        channelUpdateNotify st (some targets) (some info)
          = .ok (targets.filter fun q => (bsGet st.sessions q).isNone)
              ⟨st.sessions.map fun s =>
                { s with
                  queue := s.queue ++ List.replicate
                    (resolvedCount st.sessions targets s.id)
                    (Packet.ptr (ChannelInfoPacket.pack info.name
                      (info.description.getD "") cnt)) }⟩ := by
  constructor
  · simp [channelUpdateNotify, hc]
  · intro targets
    simp only [channelUpdateNotify, hc]
    rw [notifyLoop_spec]
    simp

/-- Witness for C4 at a one-session registry and a two-query target
list (one resolving, one unresolved). -/
theorem channel_update_notify_push_accounting_witness :
    (ChannelInfoMsg.mk "#osu" (some "d") (some 3)).counter = some 3
    ∧ (channelUpdateNotify
        ⟨[{ id := 5, user_id := 1, username := "u",
            username_unicode := Option.none,
            bancho_status := ⟨.idle, "", 0, "", 0, .standard⟩ }]⟩
        Option.none (some (ChannelInfoMsg.mk "#osu" (some "d") (some 3)))).isOk
      = true :=
  ⟨rfl, by
    rw [(channel_update_notify_push_accounting
      ⟨[{ id := 5, user_id := 1, username := "u",
          username_unicode := Option.none,
          bancho_status := ⟨.idle, "", 0, "", 0, .standard⟩ }]⟩
      (ChannelInfoMsg.mk "#osu" (some "d") (some 3)) 3 rfl).1]
    rfl⟩

/-! ## C5 / C9: update_user_bancho_status -/

/-- C5: on an existing session, `update_user_bancho_status` with valid
`online_status` / `mode` discriminants sets all six `bancho_status`
fields to the requested values and pushes the freshly built `UserStats`
frame of that session onto the outbound queue of every session in the
registry, so every session's next drain ends with that frame. -/
theorem update_status_sets_fields_and_broadcasts
    (st : BState) (q : UserQuery) (s : BSession) (os md : Int)
    (osv : UserOnlineStatus) (mdv : GameMode) (desc md5 : String)
    (mods bid : Nat)
    (hs : bsGet st.sessions q = some s)
    (hos : UserOnlineStatus.fromI32 os = some osv)
    (hmd : GameMode.fromI32 md = some mdv) :
    updateUserBanchoStatus st (some q) os desc md5 mods md bid
      = .ok () ⟨(st.sessions.map fun t =>
          if t.id == s.id then
            { t with bancho_status := ⟨osv, desc, bid, md5, mods, mdv⟩ }
          else t).map fun t =>
            { t with queue := t.queue ++ [Packet.ptr
                (BSession.user_stats_packet
                  { s with bancho_status := ⟨osv, desc, bid, md5, mods, mdv⟩ })] }⟩
    ∧ ∀ t ∈ ((st.sessions.map fun t =>
          if t.id == s.id then
            { t with bancho_status := ⟨osv, desc, bid, md5, mods, mdv⟩ }
          else t).map fun t =>
            { t with queue := t.queue ++ [Packet.ptr
                (BSession.user_stats_packet
                  { s with bancho_status := ⟨osv, desc, bid, md5, mods, mdv⟩ })] }),
        ∃ l, (dequeueAllPackets t.queue).1
          = l ++ BSession.user_stats_packet
              { s with bancho_status := ⟨osv, desc, bid, md5, mods, mdv⟩ } := by
  constructor
  · simp [updateUserBanchoStatus, hs, hos, hmd, BanchoStatus.update_all,
      broadcastBanchoPackets]
  · intro t ht
    rw [List.mem_map] at ht
    obtain ⟨u, _, hu⟩ := ht
    refine ⟨((u.queue.map packetBytes).flatten), ?_⟩
    rw [← hu]
    simp [dequeueAllPackets_eq, packetBytes]

/-- Witness for C5: a two-session registry; the stats-update of user 1
is appended to both queues. -/
theorem update_status_sets_fields_and_broadcasts_witness :
    bsGet [{ id := 5, user_id := 1, username := "a",
             username_unicode := Option.none,
             bancho_status := ⟨.idle, "", 0, "", 0, .standard⟩ },
           { id := 6, user_id := 2, username := "b",
             username_unicode := Option.none,
             bancho_status := ⟨.idle, "", 0, "", 0, .standard⟩ }]
      (UserQuery.userId 1)
      = some { id := 5, user_id := 1, username := "a",
               username_unicode := Option.none,
               bancho_status := ⟨.idle, "", 0, "", 0, .standard⟩ }
    ∧ UserOnlineStatus.fromI32 2 = some .playing
    ∧ GameMode.fromI32 0 = some .standard
    ∧ (updateUserBanchoStatus
        ⟨[{ id := 5, user_id := 1, username := "a",
            username_unicode := Option.none,
            bancho_status := ⟨.idle, "", 0, "", 0, .standard⟩ },
          { id := 6, user_id := 2, username := "b",
            username_unicode := Option.none,
            bancho_status := ⟨.idle, "", 0, "", 0, .standard⟩ }]⟩
        (some (UserQuery.userId 1)) 2 "map" "abcd" 64 0 99).isOk = true := by
  refine ⟨by rfl, by rfl, by rfl, ?_⟩
  rw [(update_status_sets_fields_and_broadcasts
    ⟨[{ id := 5, user_id := 1, username := "a",
        username_unicode := Option.none,
        bancho_status := ⟨.idle, "", 0, "", 0, .standard⟩ },
      { id := 6, user_id := 2, username := "b",
        username_unicode := Option.none,
        bancho_status := ⟨.idle, "", 0, "", 0, .standard⟩ }]⟩
    (UserQuery.userId 1) _ 2 0 .playing .standard "map" "abcd" 64 99
    (by rfl) (by rfl) (by rfl)).1]
  rfl

/-- C9: `update_user_bancho_status` never errors on out-of-range
`online_status` / `mode` integers: undecodable values are replaced by
the defaults `Idle` and `Standard` (`unwrap_or_default`), the call
succeeds and still broadcasts the resulting stats frame — whereas
`update_presence_filter` rejects an undecodable `presence_filter`
integer with `InvalidArgument`. -/
theorem status_update_tolerates_invalid_enums
    (st : BState) (q : UserQuery) (s : BSession) (os md : Int)
    (desc md5 : String) (mods bid : Nat)
    (hs : bsGet st.sessions q = some s)
    (hos : UserOnlineStatus.fromI32 os = Option.none)
    (hmd : GameMode.fromI32 md = Option.none) :
    (updateUserBanchoStatus st (some q) os desc md5 mods md bid
      = .ok () ⟨(st.sessions.map fun t =>
          if t.id == s.id then
            { t with
              bancho_status := ⟨.idle, desc, bid, md5, mods, .standard⟩ }
          else t).map fun t =>
            { t with
              queue := t.queue ++ [Packet.ptr
                (BSession.user_stats_packet
                  { s with
                    bancho_status :=
                      ⟨.idle, desc, bid, md5, mods, .standard⟩ })] }⟩)
    ∧ ∀ (st₂ : BState) (q₂ : Option UserQuery) (pf : Int),
        PresenceFilter.fromI32 pf = Option.none →
          updatePresenceFilter st₂ q₂ pf = .err .invalidArgument st₂ := by
  constructor
  · simp [updateUserBanchoStatus, hs, hos, hmd, BanchoStatus.update_all,
      broadcastBanchoPackets]
  · intro st₂ q₂ pf hpf
    cases q₂ with
    | none => rfl
    | some q₂ => simp [updatePresenceFilter, hpf]

/-- Witness for C9 at a one-session registry, with the undecodable
discriminants 99. -/
theorem status_update_tolerates_invalid_enums_witness :
    UserOnlineStatus.fromI32 99 = Option.none
    ∧ GameMode.fromI32 99 = Option.none
    ∧ PresenceFilter.fromI32 99 = Option.none
    ∧ (updateUserBanchoStatus
        ⟨[{ id := 5, user_id := 1, username := "a",
            username_unicode := Option.none,
            bancho_status := ⟨.idle, "", 0, "", 0, .standard⟩ }]⟩
        (some (UserQuery.userId 1)) 99 "d" "m" 0 99 1).isOk = true
    ∧ updatePresenceFilter
        ⟨[{ id := 5, user_id := 1, username := "a",
            username_unicode := Option.none,
            bancho_status := ⟨.idle, "", 0, "", 0, .standard⟩ }]⟩
        (some (UserQuery.userId 1)) 99
        = .err .invalidArgument
            ⟨[{ id := 5, user_id := 1, username := "a",
                username_unicode := Option.none,
                bancho_status := ⟨.idle, "", 0, "", 0, .standard⟩ }]⟩ := by
  refine ⟨by rfl, by rfl, by rfl, ?_, ?_⟩
  · rw [(status_update_tolerates_invalid_enums
      ⟨[{ id := 5, user_id := 1, username := "a",
          username_unicode := Option.none,
          bancho_status := ⟨.idle, "", 0, "", 0, .standard⟩ }]⟩
      (UserQuery.userId 1) _ 99 99 "d" "m" 0 1 (by rfl) (by rfl)
      (by rfl)).1]
    rfl
  · exact (status_update_tolerates_invalid_enums
      ⟨[{ id := 5, user_id := 1, username := "a",
          username_unicode := Option.none,
          bancho_status := ⟨.idle, "", 0, "", 0, .standard⟩ }]⟩
      (UserQuery.userId 1)
      { id := 5, user_id := 1, username := "a",
        username_unicode := Option.none,
        bancho_status := ⟨.idle, "", 0, "", 0, .standard⟩ }
      99 99 "d" "m" 0 1 (by rfl) (by rfl) (by rfl)).2
      _ (some (UserQuery.userId 1)) 99 (by rfl)

/-! ## C6: channel-addressed enqueue / dequeue -/

theorem tryIntoUserQuery_intoTarget (q : UserQuery) :
    q.intoTarget.tryIntoUserQuery = some q := by
  cases q <;> rfl

/-- C6 counterexample: at a concrete state, channel-addressed
`enqueue_bancho_packets` / `dequeue_bancho_packets` do not return
successfully — the `Local` branch reaches `todo!("channel handle")`
instead of appending to (or draining) a channel message log. -/
theorem channel_addressed_enqueue_hits_todo :
    (enqueueBanchoPackets ⟨[]⟩ (some (BanchoPacketTarget.channelId 1))
        [7]).isOk = false
    ∧ (dequeueBanchoPackets ⟨[]⟩
        (some (BanchoPacketTarget.channelName "#osu"))).isOk = false :=
  ⟨rfl, rfl⟩

/-- C6 (amended): user-addressed targets of `enqueue_bancho_packets` /
`dequeue_bancho_packets` push onto, respectively drain, the addressed
session's queue and return successfully, but the channel-addressed
targets (`ChannelId` / `ChannelName`) are unimplemented: the `Local`
service reaches `todo!("channel handle")` and panics instead of
touching any channel message log. -/
theorem enqueue_dequeue_channel_target_unimplemented
    (st : BState) (packets : List Nat) :
    (∀ cid : Nat,
      enqueueBanchoPackets st (some (.channelId cid)) packets = .panic
      ∧ dequeueBanchoPackets st (some (.channelId cid)) = .panic)
    ∧ (∀ cname : String,
      enqueueBanchoPackets st (some (.channelName cname)) packets = .panic
      ∧ dequeueBanchoPackets st (some (.channelName cname)) = .panic)
    ∧ ∀ (q : UserQuery) (s : BSession), bsGet st.sessions q = some s →
        enqueueBanchoPackets st (some q.intoTarget) packets
          = .ok () ⟨pushToSession st.sessions s.id (Packet.ptr packets)⟩
        ∧ dequeueBanchoPackets st (some q.intoTarget)
          = .ok (dequeueAllPackets s.queue).1
              ⟨clearSessionQueue st.sessions s.id⟩ := by
  refine ⟨fun cid => ⟨rfl, rfl⟩, fun cname => ⟨rfl, rfl⟩, ?_⟩
  intro q s hs
  constructor
  · simp [enqueueBanchoPackets, tryIntoUserQuery_intoTarget, hs]
  · simp [dequeueBanchoPackets, tryIntoUserQuery_intoTarget, hs]

/-- Witness for the amended C6: a one-session registry; the
user-addressed enqueue succeeds. -/
theorem enqueue_dequeue_channel_target_unimplemented_witness :
    bsGet [{ id := 5, user_id := 1, username := "a",
             username_unicode := Option.none,
             bancho_status := ⟨.idle, "", 0, "", 0, .standard⟩ }]
        (UserQuery.sessionId 5)
      = some { id := 5, user_id := 1, username := "a",
               username_unicode := Option.none,
               bancho_status := ⟨.idle, "", 0, "", 0, .standard⟩ }
    ∧ (enqueueBanchoPackets
        ⟨[{ id := 5, user_id := 1, username := "a",
            username_unicode := Option.none,
            bancho_status := ⟨.idle, "", 0, "", 0, .standard⟩ }]⟩
        (some (UserQuery.sessionId 5).intoTarget) [7]).isOk = true := by
  refine ⟨by rfl, ?_⟩
  rw [((enqueue_dequeue_channel_target_unimplemented
    ⟨[{ id := 5, user_id := 1, username := "a",
        username_unicode := Option.none,
        bancho_status := ⟨.idle, "", 0, "", 0, .standard⟩ }]⟩
    [7]).2.2 (UserQuery.sessionId 5) _ (by rfl)).1]
  rfl

/-! ## C7: remote chat service — public channel cache
    (src/core/services/src/chat/services/chat.rs,
    `CachedValue for PublicChannelInfo`) -/

/-- `DEFAULT_CHANNEL_CACHE_EXPIRES`: the public-channel cache TTL in
seconds. -/
def DEFAULT_CHANNEL_CACHE_EXPIRES : Nat := 300

/-- peace_pb chat `ChannelInfo` message, reduced to the fields the
cache stores (identity only; no claim inspects the other fields). -/
structure PBChannelInfo where
  id : Nat
  name : String
  deriving Repr, DecidableEq

/-- `ChatServiceError` kinds reaching the cache path. -/
inductive ChatErr : Type
  | rpcError (code : Nat)
  | invalidArgument
  deriving Repr, DecidableEq

/-- What `CachedAtomic::get` hands to `fetch`: the cached list and
whether it is expired. -/
structure CacheSnapshot where
  cache : List PBChannelInfo
  expired : Bool
  deriving Repr, DecidableEq

/-- Modelled from the spec: `tools::cache::CachedAtomic::get` (crate
`tools`, not under the provided sources).  Spec §4.6: the remote
variant caches with a TTL; an entry stored at time `t` with TTL
`expires` read at time `now` is expired when `now` is past
`t + expires`. -/
def cachedGet (stored : Option (List PBChannelInfo × Nat))
    (now expires : Nat) : Option CacheSnapshot :=
  stored.map fun e => ⟨e.1, decide (e.2 + expires < now)⟩

/-- `CachedValue::fetch` for `PublicChannelInfo`: an unexpired cached
value is returned without fetching; an expired one triggers a fresh
fetch whose failure falls back to the expired cache
(`unwrap_or(cached_value.cache)`); with no cached value the fetch
result (or error) is returned as-is.  `remote` is the outcome the RPC
would produce; the returned flag records whether `fetch_new` ran. -/
def fetchPublicChannels (snapshot : Option CacheSnapshot)
    (remote : Except ChatErr (List PBChannelInfo)) :
    Except ChatErr (List PBChannelInfo) × Bool :=
  match snapshot with
  | some cv =>
    if !cv.expired then (Except.ok cv.cache, false)
    else
      match remote with
      | Except.ok v => (Except.ok v, true)
      | Except.error _ => (Except.ok cv.cache, true)
  | Option.none => (remote, true)

/-- C7: while a cached public-channel list (TTL 300 s) is present and
unexpired, `get_public_channels` returns it without a remote fetch;
when it is present but expired and the fresh fetch fails, the expired
cached value is still returned instead of an error; only with no
cached value does a fetch failure surface as an error. -/
theorem public_channels_cache_policy
    (v : List PBChannelInfo) (t now : Nat) (e : ChatErr)
    (remote : Except ChatErr (List PBChannelInfo)) :
    (DEFAULT_CHANNEL_CACHE_EXPIRES = 300)
    ∧ (now ≤ t + DEFAULT_CHANNEL_CACHE_EXPIRES →
        fetchPublicChannels
          (cachedGet (some (v, t)) now DEFAULT_CHANNEL_CACHE_EXPIRES) remote
          = (Except.ok v, false))
    ∧ (t + DEFAULT_CHANNEL_CACHE_EXPIRES < now →
        fetchPublicChannels
          (cachedGet (some (v, t)) now DEFAULT_CHANNEL_CACHE_EXPIRES)
          (Except.error e)
          = (Except.ok v, true))
    ∧ fetchPublicChannels
        (cachedGet Option.none now DEFAULT_CHANNEL_CACHE_EXPIRES)
        (Except.error e)
        = (Except.error e, true) := by
  refine ⟨rfl, ?_, ?_, rfl⟩
  · intro h
    have : ¬ (t + DEFAULT_CHANNEL_CACHE_EXPIRES < now) := by omega
    simp [cachedGet, fetchPublicChannels, this]
  · intro h
    simp [cachedGet, fetchPublicChannels, h]

/-- Witness for C7 at concrete timestamps on both sides of the TTL. -/
theorem public_channels_cache_policy_witness :
    ((100 : Nat) ≤ 0 + DEFAULT_CHANNEL_CACHE_EXPIRES
      ∧ fetchPublicChannels
          (cachedGet (some ([⟨1, "#osu"⟩], 0)) 100
            DEFAULT_CHANNEL_CACHE_EXPIRES)
          (Except.error (ChatErr.rpcError 1))
          = (Except.ok [⟨1, "#osu"⟩], false))
    ∧ ((0 : Nat) + DEFAULT_CHANNEL_CACHE_EXPIRES < 301
      ∧ fetchPublicChannels
          (cachedGet (some ([⟨1, "#osu"⟩], 0)) 301
            DEFAULT_CHANNEL_CACHE_EXPIRES)
          (Except.error (ChatErr.rpcError 1))
          = (Except.ok [⟨1, "#osu"⟩], true)) := by
  constructor
  · exact ⟨by decide,
      (public_channels_cache_policy [⟨1, "#osu"⟩] 0 100 (ChatErr.rpcError 1)
        (Except.error (ChatErr.rpcError 1))).2.1 (by decide)⟩
  · exact ⟨by decide,
      (public_channels_cache_policy [⟨1, "#osu"⟩] 0 301 (ChatErr.rpcError 1)
        (Except.error (ChatErr.rpcError 1))).2.2.1 (by decide)⟩

/-! ## Chat service: channels, message log, pull_chat_packets
    (src/core/services/src/chat/services/chat.rs, `ChatServiceImpl`) -/

/-- One logged channel message: monotonic id plus payload bytes.
(`tools::message_queue` entry; ids model the time-ordered `Ulid`s.) -/
structure ChannelMsg where
  id : Nat
  data : List Nat
  deriving Repr, DecidableEq

/-- A chat channel reduced to what `pull_chat_packets` touches: its id
and its message log, oldest first. -/
structure ChatChannel where
  channel_id : Nat
  messages : List ChannelMsg
  deriving Repr, DecidableEq

/-- The log entries strictly after a cursor. -/
def newMessages (msgs : List ChannelMsg) (cursor : Nat) : List ChannelMsg :=
  msgs.filter fun m => cursor < m.id

/-- Modelled from the spec:
`tools::message_queue::MessageQueue::receive_messages` (crate `tools`,
not under the provided sources).  Spec §4.3 `receive_since`: return all
messages with id greater than the cursor together with the id of the
last message returned; nothing new returns nothing. -/
def receiveMessages (msgs : List ChannelMsg) (cursor : Nat) :
    Option (List (List Nat) × Nat) :=
  match (newMessages msgs cursor).getLast? with
  | Option.none => Option.none
  | some lastm =>
    some ((newMessages msgs cursor).map fun m => m.data, lastm.id)

/-- A chat-queue session (`Session<ChatExtend>`): identity keys, the
outbound queue, the per-channel read cursors
(`extend.channel_read_process`) and the fallback cursor
(`extend.default_read_process`). -/
structure QSession where
  id : Nat
  user_id : Int
  username : String
  username_unicode : Option String
  queue : PacketQueue
  channel_read_process : List (Nat × Nat)
  default_read_process : Nat
  deriving Repr, DecidableEq

/-- Does a chat-queue session answer to a `UserQuery`? -/
def qQueryMatches (s : QSession) : UserQuery → Bool
  | .sessionId t => s.id == t
  | .userId t => s.user_id == t
  | .username t => s.username == t
  | .usernameUnicode t => s.username_unicode == some t

/-- Modelled from the spec: the chat queue service's
`user_sessions().get(query)` (spec §4.1, same multi-indexed store as
the bancho registry). -/
def qGet (ss : List QSession) (q : UserQuery) : Option QSession :=
  ss.find? (qQueryMatches · q)

/-- Lookup in the read-cursor map (`HashMap<u64, Ulid>`). -/
def crpLookup (crp : List (Nat × Nat)) (cid : Nat) : Option Nat :=
  (crp.find? fun e => e.1 == cid).map fun e => e.2

/-- Insert / replace in the read-cursor map. -/
def crpInsert (crp : List (Nat × Nat)) (cid v : Nat) : List (Nat × Nat) :=
  match crp with
  | [] => [(cid, v)]
  | e :: rest =>
    if e.1 == cid then (cid, v) :: rest else e :: crpInsert rest cid v

/-- The chat service's local state: the queue sessions, the channel
registry (`channel_service.channels()`), and the user→bancho-channels
reverse map (`channel_service.user_channels()`, already restricted to
`Platform::Bancho`; a user with no entry or no bancho platform entry is
simply absent). -/
structure ChatState where
  qsessions : List QSession
  channels : List ChatChannel
  user_channels : List (Int × List Nat)
  deriving Repr, DecidableEq

/-- `get_channel_inner(.., ChannelQuery::ChannelId(..))`. -/
def findChannel (chs : List ChatChannel) (cid : Nat) : Option ChatChannel :=
  chs.find? fun ch => ch.channel_id == cid

/-- Lookup in the user→channels reverse map. -/
def userChannelsLookup (uc : List (Int × List Nat)) (uid : Int) :
    Option (List Nat) :=
  (uc.find? fun e => e.1 == uid).map fun e => e.2

/-- The per-channel loop of `pull_chat_packets`: for each joined
channel id, look the channel up, receive the messages after the stored
(or default) cursor, append their bytes, and store the id of the last
received message as the new cursor. -/
def pullLoop (chs : List ChatChannel) (default : Nat) :
    List Nat → List Nat → List (Nat × Nat) → List Nat × List (Nat × Nat)
  | [], data, crp => (data, crp)
  | cid :: rest, data, crp =>
    match findChannel chs cid with
    | Option.none => pullLoop chs default rest data crp
    | some ch =>
      match receiveMessages ch.messages ((crpLookup crp cid).getD default) with
      | Option.none => pullLoop chs default rest data crp
      | some r => pullLoop chs default rest (data ++ r.1.flatten)
          (crpInsert crp cid r.2)

/-- Update (by session id) one queue session in the chat state. -/
def updateQSession (st : ChatState) (sid : Nat) (f : QSession → QSession) :
    ChatState :=
  { st with
    qsessions := st.qsessions.map fun t => if t.id == sid then f t else t }

/-- `pull_chat_packets` (Local): resolve the session (a missing session
reaches `todo!("create queue for user")`, modelled as no result), drain
its outbound queue, then walk every channel the user has joined on the
bancho platform, appending the messages after the user's cursor and
advancing the cursor; returns the blob and the post state. -/
def pullChatPackets (st : ChatState) (query : UserQuery) :
    Option (List Nat × ChatState) :=
  match qGet st.qsessions query with
  | Option.none => Option.none
  | some s =>
    let data0 := (dequeueAllPackets s.queue).1
    match userChannelsLookup st.user_channels s.user_id with
    | Option.none =>
      some (data0, updateQSession st s.id fun t => { t with queue := [] })
    | some cids =>
      let r := pullLoop st.channels s.default_read_process cids data0
        s.channel_read_process
      some (r.1, updateQSession st s.id fun t =>
        { t with queue := [], channel_read_process := r.2 })

/-- Spec-side per-channel catch-up: the bytes of every logged message
with id after the user's stored (or default) read cursor for that
channel. -/
def channelCatchupBytes (chs : List ChatChannel) (crp : List (Nat × Nat))
    (default : Nat) (cid : Nat) : List Nat :=
  match findChannel chs cid with
  | Option.none => []
  | some ch =>
    ((newMessages ch.messages ((crpLookup crp cid).getD default)).map
      fun m => m.data).flatten

/-- Spec-side cursor after one pull: the id of the last returned
message, or the untouched stored cursor when nothing was returned. -/
def cursorAfter (chs : List ChatChannel) (crp : List (Nat × Nat))
    (default : Nat) (cid : Nat) : Option Nat :=
  match findChannel chs cid with
  | Option.none => crpLookup crp cid
  | some ch =>
    match (newMessages ch.messages ((crpLookup crp cid).getD default)).getLast?
      with
    | Option.none => crpLookup crp cid
    | some m => some m.id

/-- Spec-side statement of the C2 blob, read off the claim: the
session's drained outbound-queue bytes followed by, for each joined
bancho channel, every logged message after the stored cursor. -/
def pullSpecData (st : ChatState) (s : QSession) : List Nat :=
  (s.queue.map packetBytes).flatten
    ++ (((userChannelsLookup st.user_channels s.user_id).getD []).map
        (channelCatchupBytes st.channels s.channel_read_process
          s.default_read_process)).flatten

/-- Append one message at the tail of one channel's log. -/
def appendMessage (st : ChatState) (cid : Nat) (m : ChannelMsg) : ChatState :=
  { st with
    channels := st.channels.map fun ch =>
      if ch.channel_id == cid then { ch with messages := ch.messages ++ [m] }
      else ch }

/-- Well-formedness: every channel log is sorted with strictly
increasing message ids (the `tools` message queue assigns monotonic
ids, spec §4.3 invariant C2). -/
def logsSorted (chs : List ChatChannel) : Prop :=
  ∀ ch ∈ chs, ch.messages.Pairwise fun a b => a.id < b.id

theorem crpLookup_insert (crp : List (Nat × Nat)) (k v c : Nat) :
    crpLookup (crpInsert crp k v) c
      = if c = k then some v else crpLookup crp c := by
  induction crp with
  | nil =>
    by_cases h : c = k
    · simp [crpInsert, crpLookup, List.find?, h]
    · have hkc : (k == c) = false := by simp [Ne.symm h]
      simp [crpInsert, crpLookup, List.find?, hkc, h]
  | cons e rest ih =>
    by_cases he : e.1 = k
    · have heq : (e.1 == k) = true := by simp [he]
      simp only [crpInsert, heq, if_true]
      by_cases h : c = k
      · simp [crpLookup, List.find?, h]
      · have hkc : (k == c) = false := by simp [Ne.symm h]
        have hec : (e.1 == c) = false := by
          rw [he]; exact hkc
        simp [crpLookup, List.find?, hkc, hec, h]
    · have hne : (e.1 == k) = false := by simp [he]
      simp only [crpInsert, hne, Bool.false_eq_true, if_false]
      by_cases hc : e.1 = c
      · have hck : ¬ c = k := fun hck => he (hc.trans hck)
        simp [crpLookup, List.find?, hc, hck]
      · have hnc : (e.1 == c) = false := by simp [hc]
        simp only [crpLookup, List.find?, hnc] at ih ⊢
        exact ih

theorem qQueryMatches_congr {f : QSession → QSession}
    (hkeys : ∀ t : QSession, (f t).id = t.id ∧ (f t).user_id = t.user_id
      ∧ (f t).username = t.username
      ∧ (f t).username_unicode = t.username_unicode)
    (t : QSession) (q : UserQuery) :
    qQueryMatches (f t) q = qQueryMatches t q := by
  obtain ⟨h1, h2, h3, h4⟩ := hkeys t
  cases q <;> simp [qQueryMatches, h1, h2, h3, h4]

theorem qGet_update {f : QSession → QSession}
    (hkeys : ∀ t : QSession, (f t).id = t.id ∧ (f t).user_id = t.user_id
      ∧ (f t).username = t.username
      ∧ (f t).username_unicode = t.username_unicode) :
    ∀ (ss : List QSession) (q : UserQuery) (s : QSession),
      qGet ss q = some s →
      qGet (ss.map fun t => if t.id == s.id then f t else t) q
        = some (f s) := by
  intro ss
  induction ss with
  | nil => intro q s hs; simp [qGet] at hs
  | cons a rest ih =>
    intro q s hs
    simp only [qGet, List.find?] at hs
    by_cases hpa : qQueryMatches a q
    · rw [hpa] at hs
      simp only [Option.some.injEq] at hs
      subst hs
      have hfa : qQueryMatches (f a) q = true := by
        rw [qQueryMatches_congr hkeys]
        exact hpa
      simp [qGet, List.find?, hfa]
    · have hpa' : qQueryMatches a q = false := by
        simpa using hpa
      rw [hpa'] at hs
      have hhead : qQueryMatches (if a.id == s.id then f a else a) q
          = false := by
        by_cases hid : a.id == s.id
        · simp only [hid, if_true]
          rw [qQueryMatches_congr hkeys]
          exact hpa'
        · simp only [hid, Bool.false_eq_true, if_false]
          exact hpa'
      have := ih q s hs
      simp only [qGet, List.map_cons, List.find?, hhead] at this ⊢
      exact this

theorem sorted_le_getLast :
    ∀ (l : List ChannelMsg), l.Pairwise (fun a b => a.id < b.id) →
      ∀ x ∈ l, ∀ y, l.getLast? = some y → x.id ≤ y.id := by
  intro l
  induction l with
  | nil => intro _ x hx; cases hx
  | cons a rest ih =>
    intro hp x hx y hy
    rw [List.pairwise_cons] at hp
    cases rest with
    | nil =>
      simp at hx hy
      subst hx; subst hy
      exact Nat.le_refl _
    | cons b rest' =>
      rw [List.getLast?_cons_cons] at hy
      rcases List.mem_cons.mp hx with hxa | hxr
      · subst hxa
        have hy_mem : y ∈ b :: rest' := List.mem_of_getLast?_eq_some hy
        exact Nat.le_of_lt (hp.1 y hy_mem)
      · exact ih hp.2 x hxr y hy

/-- After one catch-up from cursor `c₀`, every message id in the log is
at most the id of the last returned message (or still at most `c₀` when
nothing was returned). -/
theorem catchup_covers (msgs : List ChannelMsg)
    (hsort : msgs.Pairwise fun a b => a.id < b.id) (c₀ : Nat) :
    ∀ m ∈ msgs,
      m.id ≤ (match (newMessages msgs c₀).getLast? with
        | some lastm => lastm.id
        | Option.none => c₀) := by
  intro m hm
  cases hl : (newMessages msgs c₀).getLast? with
  | none =>
    rw [List.getLast?_eq_none_iff] at hl
    have := List.filter_eq_nil_iff.mp hl m hm
    simpa using this
  | some lastm =>
    show m.id ≤ lastm.id
    by_cases hc : c₀ < m.id
    · have hmem : m ∈ newMessages msgs c₀ := by
        rw [newMessages, List.mem_filter]
        exact ⟨hm, by simpa using hc⟩
      have hsort' : (newMessages msgs c₀).Pairwise fun a b => a.id < b.id :=
        List.Pairwise.sublist (List.filter_sublist msgs) hsort
      exact sorted_le_getLast _ hsort' m hmem lastm hl
    · have hlast_mem : lastm ∈ newMessages msgs c₀ :=
        List.mem_of_getLast?_eq_some hl
      rw [newMessages, List.mem_filter] at hlast_mem
      have : c₀ < lastm.id := by simpa using hlast_mem.2
      omega

theorem findChannel_appendMessage (chs : List ChatChannel) (cid : Nat)
    (m : ChannelMsg) (c : Nat) :
    findChannel (chs.map fun ch =>
        if ch.channel_id == cid then
          { ch with messages := ch.messages ++ [m] }
        else ch) c
      = (findChannel chs c).map fun ch =>
          if ch.channel_id == cid then
            { ch with messages := ch.messages ++ [m] }
          else ch := by
  induction chs with
  | nil => rfl
  | cons a rest ih =>
    have hpres : ((if a.channel_id == cid then
        { a with messages := a.messages ++ [m] } else a).channel_id == c)
        = (a.channel_id == c) := by
      by_cases h : a.channel_id == cid <;> simp [h]
    simp only [findChannel, List.map_cons, List.find?, hpres] at ih ⊢
    cases hac : (a.channel_id == c) with
    | true => rfl
    | false => exact ih

theorem receiveMessages_eq_none_iff (msgs : List ChannelMsg) (c : Nat) :
    receiveMessages msgs c = Option.none
      ↔ (newMessages msgs c).getLast? = Option.none := by
  unfold receiveMessages
  cases (newMessages msgs c).getLast? <;> simp

theorem receiveMessages_eq_some (msgs : List ChannelMsg) (c : Nat)
    (r : List (List Nat) × Nat) (h : receiveMessages msgs c = some r) :
    ∃ lastm, (newMessages msgs c).getLast? = some lastm
      ∧ r = ((newMessages msgs c).map fun m => m.data, lastm.id) := by
  unfold receiveMessages at h
  cases hl : (newMessages msgs c).getLast? with
  | none => rw [hl] at h; cases h
  | some lastm =>
    rw [hl] at h
    simp only [Option.some.injEq] at h
    exact ⟨lastm, rfl, h.symm⟩

theorem pullLoop_spec (chs : List ChatChannel) (default : Nat) :
    ∀ cids : List Nat, cids.Nodup →
      ∀ (data : List Nat) (crp crp₀ : List (Nat × Nat)),
        (∀ c ∈ cids, crpLookup crp c = crpLookup crp₀ c) →
        (pullLoop chs default cids data crp).1
          = data ++ (cids.map (channelCatchupBytes chs crp₀ default)).flatten
        ∧ ∀ c : Nat,
            crpLookup (pullLoop chs default cids data crp).2 c
              = if c ∈ cids then cursorAfter chs crp₀ default c
                else crpLookup crp c := by
  intro cids
  induction cids with
  | nil =>
    intro _ data crp crp₀ _
    exact ⟨by simp [pullLoop], fun c => by simp [pullLoop]⟩
  | cons cid rest ih =>
    intro hnd data crp crp₀ hagree
    have hcidrest : cid ∉ rest := (List.nodup_cons.mp hnd).1
    have hndrest : rest.Nodup := (List.nodup_cons.mp hnd).2
    have hagree_head : crpLookup crp cid = crpLookup crp₀ cid :=
      hagree cid (List.mem_cons_self _ _)
    have hagree_rest : ∀ c ∈ rest, crpLookup crp c = crpLookup crp₀ c :=
      fun c hc => hagree c (List.mem_cons_of_mem _ hc)
    have hcur : (crpLookup crp cid).getD default
        = (crpLookup crp₀ cid).getD default := by rw [hagree_head]
    cases hf : findChannel chs cid with
    | none =>
      have hcb : channelCatchupBytes chs crp₀ default cid = [] := by
        simp [channelCatchupBytes, hf]
      have hca : cursorAfter chs crp₀ default cid = crpLookup crp₀ cid := by
        simp [cursorAfter, hf]
      obtain ⟨h1, h2⟩ := ih hndrest data crp crp₀ hagree_rest
      refine ⟨?_, fun c => ?_⟩
      · simp only [pullLoop, hf]
        rw [h1]
        simp [hcb]
      · simp only [pullLoop, hf]
        rw [h2 c]
        by_cases hcc : c = cid
        · subst hcc
          simp [hcidrest, hca, hagree_head]
        · by_cases hcr : c ∈ rest
          · simp [hcr, List.mem_cons]
          · simp [hcr, List.mem_cons, hcc]
    | some ch =>
      cases hr : receiveMessages ch.messages
          ((crpLookup crp cid).getD default) with
      | none =>
        have hl : (newMessages ch.messages
            ((crpLookup crp₀ cid).getD default)).getLast? = Option.none := by
          rw [← hcur]
          exact (receiveMessages_eq_none_iff _ _).mp hr
        have hcb : channelCatchupBytes chs crp₀ default cid = [] := by
          have hnil : newMessages ch.messages
              ((crpLookup crp₀ cid).getD default) = [] :=
            List.getLast?_eq_none_iff.mp hl
          simp [channelCatchupBytes, hf, hnil]
        have hca : cursorAfter chs crp₀ default cid = crpLookup crp₀ cid := by
          simp [cursorAfter, hf, hl]
        obtain ⟨h1, h2⟩ := ih hndrest data crp crp₀ hagree_rest
        refine ⟨?_, fun c => ?_⟩
        · simp only [pullLoop, hf, hr]
          rw [h1]
          simp [hcb]
        · simp only [pullLoop, hf, hr]
          rw [h2 c]
          by_cases hcc : c = cid
          · subst hcc
            simp [hcidrest, hca, hagree_head]
          · by_cases hcr : c ∈ rest
            · simp [hcr, List.mem_cons]
            · simp [hcr, List.mem_cons, hcc]
      | some r =>
        obtain ⟨lastm, hl, hreq⟩ := receiveMessages_eq_some _ _ _ hr
        subst hreq
        have hl₀ : (newMessages ch.messages
            ((crpLookup crp₀ cid).getD default)).getLast? = some lastm := by
          rw [← hcur]; exact hl
        have hagree2 : ∀ c ∈ rest,
            crpLookup (crpInsert crp cid lastm.id) c = crpLookup crp₀ c := by
          intro c hc
          rw [crpLookup_insert]
          have hne : ¬ c = cid := fun h => hcidrest (h ▸ hc)
          simp only [hne, if_false]
          exact hagree_rest c hc
        obtain ⟨h1, h2⟩ := ih hndrest
          (data ++ ((newMessages ch.messages
            ((crpLookup crp cid).getD default)).map fun m => m.data).flatten)
          (crpInsert crp cid lastm.id) crp₀ hagree2
        have hcb : channelCatchupBytes chs crp₀ default cid
            = ((newMessages ch.messages
                ((crpLookup crp cid).getD default)).map
               fun m => m.data).flatten := by
          simp only [channelCatchupBytes, hf, hcur]
        refine ⟨?_, fun c => ?_⟩
        · simp only [pullLoop, hf, hr]
          rw [h1]
          simp [hcb, List.append_assoc]
        · simp only [pullLoop, hf, hr]
          rw [h2 c]
          by_cases hcc : c = cid
          · subst hcc
            have hca : cursorAfter chs crp₀ default c = some lastm.id := by
              simp [cursorAfter, hf, hl₀]
            simp [hcidrest, hca, crpLookup_insert]
          · by_cases hcr : c ∈ rest
            · simp [hcr, List.mem_cons]
            · have hli : crpLookup (crpInsert crp cid lastm.id) c
                  = crpLookup crp c := by
                rw [crpLookup_insert]; simp [hcc]
              simp [hcr, List.mem_cons, hcc, hli]

theorem cursorAfter_getD (chs : List ChatChannel) (crp : List (Nat × Nat))
    (d cid : Nat) (ch : ChatChannel) (hf : findChannel chs cid = some ch) :
    (cursorAfter chs crp d cid).getD d
      = (match (newMessages ch.messages
            ((crpLookup crp cid).getD d)).getLast? with
        | some lastm => lastm.id
        | Option.none => (crpLookup crp cid).getD d) := by
  unfold cursorAfter
  rw [hf]
  cases hl : (newMessages ch.messages ((crpLookup crp cid).getD d)).getLast?
    with
  | none => simp [hl]
  | some lastm => simp [hl]

theorem crpLookup_some_mem (crp : List (Nat × Nat)) (c v : Nat)
    (h : crpLookup crp c = some v) : ∃ e ∈ crp, e.2 = v := by
  unfold crpLookup at h
  cases hf : crp.find? (fun e => e.1 == c) with
  | none => rw [hf] at h; cases h
  | some e =>
    rw [hf] at h
    simp only [Option.map_some', Option.some.injEq] at h
    exact ⟨e, List.mem_of_find?_eq_some hf, h⟩

theorem newMessages_after_cursorAfter_nil (chs : List ChatChannel)
    (crp : List (Nat × Nat)) (d cid : Nat) (ch : ChatChannel)
    (hf : findChannel chs cid = some ch)
    (hsort : ch.messages.Pairwise fun a b => a.id < b.id)
    (crp' : List (Nat × Nat))
    (hcrp' : crpLookup crp' cid = cursorAfter chs crp d cid) :
    newMessages ch.messages ((crpLookup crp' cid).getD d) = [] := by
  rw [hcrp', cursorAfter_getD chs crp d cid ch hf]
  apply List.filter_eq_nil_iff.mpr
  intro m hm
  have hle := catchup_covers ch.messages hsort ((crpLookup crp cid).getD d)
    m hm
  simp only [decide_eq_true_eq]
  omega

theorem catchupBytes_after_pull_nil (chs : List ChatChannel)
    (crp : List (Nat × Nat)) (d cid : Nat) (crp' : List (Nat × Nat))
    (hsort : logsSorted chs)
    (hcrp' : crpLookup crp' cid = cursorAfter chs crp d cid) :
    channelCatchupBytes chs crp' d cid = [] := by
  cases hf : findChannel chs cid with
  | none => simp [channelCatchupBytes, hf]
  | some ch =>
    have hch : ch ∈ chs := List.mem_of_find?_eq_some hf
    have hnil := newMessages_after_cursorAfter_nil chs crp d cid ch hf
      (hsort ch hch) crp' hcrp'
    simp [channelCatchupBytes, hf, hnil]

theorem cursorAfter_lt (chs : List ChatChannel) (crp : List (Nat × Nat))
    (d cid : Nat) (ch : ChatChannel) (mid : Nat)
    (hf : findChannel chs cid = some ch)
    (hd : d < mid)
    (hcrp : ∀ e ∈ crp, e.2 < mid)
    (hmsgs : ∀ msg ∈ ch.messages, msg.id < mid) :
    (cursorAfter chs crp d cid).getD d < mid := by
  rw [cursorAfter_getD chs crp d cid ch hf]
  cases hl : (newMessages ch.messages ((crpLookup crp cid).getD d)).getLast?
    with
  | none =>
    show (crpLookup crp cid).getD d < mid
    cases hv : crpLookup crp cid with
    | none => simpa using hd
    | some v =>
      obtain ⟨e, he, hev⟩ := crpLookup_some_mem crp cid v hv
      have := hcrp e he
      simp only [Option.getD_some]
      omega
  | some lastm =>
    show lastm.id < mid
    have hmem : lastm ∈ ch.messages := by
      have := List.mem_of_getLast?_eq_some hl
      exact (List.mem_filter.mp this).1
    exact hmsgs lastm hmem

theorem updateQSession_congr (ss : List QSession)
    (hids : (ss.map QSession.id).Nodup) (s : QSession) (hmem : s ∈ ss)
    (f g : QSession → QSession) (hfg : f s = g s) :
    (ss.map fun t => if t.id == s.id then f t else t)
      = ss.map fun t => if t.id == s.id then g t else t := by
  apply List.map_congr_left
  intro t ht
  by_cases hid : t.id = s.id
  · have hts : t = s := List.inj_on_of_nodup_map hids ht hmem hid
    subst hts
    simp [hfg]
  · have : (t.id == s.id) = false := by simp [hid]
    simp [this]

theorem pullChatPackets_eq_some (st : ChatState) (query : UserQuery)
    (s : QSession) (cids : List Nat)
    (hs : qGet st.qsessions query = some s)
    (huc : userChannelsLookup st.user_channels s.user_id = some cids) :
    pullChatPackets st query
      = some ((pullLoop st.channels s.default_read_process cids
            (dequeueAllPackets s.queue).1 s.channel_read_process).1,
          updateQSession st s.id fun t =>
            { t with
                queue := []
                channel_read_process :=
                  (pullLoop st.channels s.default_read_process cids
                    (dequeueAllPackets s.queue).1
                    s.channel_read_process).2 }) := by
  simp [pullChatPackets, hs, huc]

theorem pullChatPackets_eq_none_channels (st : ChatState)
    (query : UserQuery) (s : QSession)
    (hs : qGet st.qsessions query = some s)
    (huc : userChannelsLookup st.user_channels s.user_id = Option.none) :
    pullChatPackets st query
      = some ((dequeueAllPackets s.queue).1,
          updateQSession st s.id fun t => { t with queue := [] }) := by
  simp [pullChatPackets, hs, huc]

/-- The chat state after one pull by the session with the given id:
queue drained, read cursors replaced. -/
def pulledState (st : ChatState) (sid : Nat) (crp' : List (Nat × Nat)) :
    ChatState :=
  updateQSession st sid fun t =>
    { t with queue := [], channel_read_process := crp' }

/-- C2: `pull_chat_packets`, for a user that has a session, returns the
session's drained outbound-queue bytes followed by, for each channel
the user has joined on the bancho platform, every logged message with
id after the user's stored read cursor for that channel
(`pullSpecData`); it stores the id of the last returned message as the
channel's new cursor (`cursorAfter`), so an immediately repeated pull
returns no message twice, and a message appended after the cursor is
returned by the next pull. -/
theorem pull_chat_packets_cursor_contract
    (st : ChatState) (query : UserQuery) (s : QSession)
    (hs : qGet st.qsessions query = some s)
    (hids : (st.qsessions.map QSession.id).Nodup)
    (hnd : ((userChannelsLookup st.user_channels s.user_id).getD []).Nodup)
    (hsort : logsSorted st.channels) :
    ∃ crp' : List (Nat × Nat),
      pullChatPackets st query
        = some (pullSpecData st s, pulledState st s.id crp')
      ∧ (∀ cid ∈ (userChannelsLookup st.user_channels s.user_id).getD [],
          crpLookup crp' cid
            = cursorAfter st.channels s.channel_read_process
                s.default_read_process cid)
      ∧ (∃ st2, pullChatPackets (pulledState st s.id crp') query
          = some ([], st2))
      ∧ ∀ (cid : Nat) (ch : ChatChannel) (m : ChannelMsg),
          cid ∈ (userChannelsLookup st.user_channels s.user_id).getD [] →
          findChannel st.channels cid = some ch →
          s.default_read_process < m.id →
          (∀ e ∈ s.channel_read_process, e.2 < m.id) →
          (∀ msg ∈ ch.messages, msg.id < m.id) →
          ∃ l r st3,
            pullChatPackets (appendMessage (pulledState st s.id crp') cid m)
                query
              = some (l ++ m.data ++ r, st3) := by
  have hmem : s ∈ st.qsessions := List.mem_of_find?_eq_some hs
  cases huc : userChannelsLookup st.user_channels s.user_id with
  | none =>
    have hget2 := @qGet_update
      (fun t => { t with queue := [], channel_read_process :=
        s.channel_read_process })
      (fun t => ⟨rfl, rfl, rfl, rfl⟩) st.qsessions query s hs
    refine ⟨s.channel_read_process, ?_, ?_, ?_, ?_⟩
    · rw [pullChatPackets_eq_none_channels st query s hs huc]
      have hdata : (dequeueAllPackets s.queue).1 = pullSpecData st s := by
        simp [pullSpecData, dequeueAllPackets_eq, huc]
      have hstate : updateQSession st s.id
            (fun t => { t with queue := [] })
          = pulledState st s.id s.channel_read_process := by
        unfold pulledState updateQSession
        have := updateQSession_congr st.qsessions hids s hmem
          (fun t => { t with queue := [] })
          (fun t => { t with queue := [], channel_read_process :=
            s.channel_read_process }) rfl
        rw [this]
      rw [hdata, hstate]
    · intro cid hcid
      simp [huc] at hcid
    · exact ⟨_, by
        rw [pullChatPackets_eq_none_channels
          (pulledState st s.id s.channel_read_process) query
          ({ s with queue := [], channel_read_process :=
            s.channel_read_process }) hget2 huc]
        rfl⟩
    · intro cid ch m hcid
      simp [huc] at hcid
  | some cids =>
    have hnd' : cids.Nodup := by simpa [huc] using hnd
    obtain ⟨h1, h2⟩ := pullLoop_spec st.channels s.default_read_process cids
      hnd' (dequeueAllPackets s.queue).1 s.channel_read_process
      s.channel_read_process (fun c _ => rfl)
    refine ⟨(pullLoop st.channels s.default_read_process cids
        (dequeueAllPackets s.queue).1 s.channel_read_process).2,
      ?_, ?_, ?_, ?_⟩
    · rw [pullChatPackets_eq_some st query s cids hs huc]
      have hdata : (pullLoop st.channels s.default_read_process cids
          (dequeueAllPackets s.queue).1 s.channel_read_process).1
          = pullSpecData st s := by
        rw [h1]
        simp [pullSpecData, dequeueAllPackets_eq, huc]
      rw [hdata]
      rfl
    · intro cid hcid
      have hcid' : cid ∈ cids := by simpa [huc] using hcid
      have := h2 cid
      simpa [hcid'] using this
    · have hget2 := @qGet_update
        (fun t => { t with queue := [], channel_read_process :=
          (pullLoop st.channels s.default_read_process cids
            (dequeueAllPackets s.queue).1 s.channel_read_process).2 })
        (fun t => ⟨rfl, rfl, rfl, rfl⟩) st.qsessions query s hs
      have heq := pullChatPackets_eq_some
        (pulledState st s.id (pullLoop st.channels s.default_read_process
          cids (dequeueAllPackets s.queue).1 s.channel_read_process).2)
        query
        ({ s with queue := [], channel_read_process :=
          (pullLoop st.channels s.default_read_process cids
            (dequeueAllPackets s.queue).1 s.channel_read_process).2 })
        cids hget2 huc
      simp only [pulledState, updateQSession, dequeueAllPackets] at heq
      obtain ⟨h1', h2'⟩ := pullLoop_spec st.channels s.default_read_process
        cids hnd' []
        (pullLoop st.channels s.default_read_process cids
          (dequeueAllPackets s.queue).1 s.channel_read_process).2
        (pullLoop st.channels s.default_read_process cids
          (dequeueAllPackets s.queue).1 s.channel_read_process).2
        (fun c _ => rfl)
      have hflat : ((cids.map (channelCatchupBytes st.channels
          (pullLoop st.channels s.default_read_process cids
            (dequeueAllPackets s.queue).1 s.channel_read_process).2
          s.default_read_process)).flatten) = [] := by
        rw [List.flatten_eq_nil_iff]
        intro x hx
        obtain ⟨cid, hcid, hxeq⟩ := List.mem_map.mp hx
        rw [← hxeq]
        refine catchupBytes_after_pull_nil st.channels s.channel_read_process
          s.default_read_process cid _ hsort ?_
        have := h2 cid
        simpa [hcid] using this
      have hdata2 : (pullLoop st.channels s.default_read_process cids []
          (pullLoop st.channels s.default_read_process cids
            (dequeueAllPackets s.queue).1 s.channel_read_process).2).1
          = [] := by
        rw [h1']
        simpa using hflat
      rw [hdata2] at heq
      exact ⟨_, by
        simp only [pulledState, updateQSession, dequeueAllPackets]
        exact heq⟩
    · intro cid ch m hcid hf hd hcrp hmsgs
      have hcid' : cid ∈ cids := by simpa [huc] using hcid
      have hcrp'eq : crpLookup (pullLoop st.channels s.default_read_process
          cids (dequeueAllPackets s.queue).1 s.channel_read_process).2 cid
          = cursorAfter st.channels s.channel_read_process
              s.default_read_process cid := by
        have := h2 cid
        simpa [hcid'] using this
      have hget2 := @qGet_update
        (fun t => { t with queue := [], channel_read_process :=
          (pullLoop st.channels s.default_read_process cids
            (dequeueAllPackets s.queue).1 s.channel_read_process).2 })
        (fun t => ⟨rfl, rfl, rfl, rfl⟩) st.qsessions query s hs
      have heq := pullChatPackets_eq_some
        (appendMessage (pulledState st s.id
          (pullLoop st.channels s.default_read_process cids
            (dequeueAllPackets s.queue).1 s.channel_read_process).2) cid m)
        query
        ({ s with queue := [], channel_read_process :=
          (pullLoop st.channels s.default_read_process cids
            (dequeueAllPackets s.queue).1 s.channel_read_process).2 })
        cids hget2 huc
      simp only [pulledState, updateQSession, appendMessage,
        dequeueAllPackets] at heq
      obtain ⟨h1'', h2''⟩ := pullLoop_spec
        (st.channels.map fun c =>
          if c.channel_id == cid then
            { c with messages := c.messages ++ [m] }
          else c)
        s.default_read_process cids hnd' []
        (pullLoop st.channels s.default_read_process cids
          (dequeueAllPackets s.queue).1 s.channel_read_process).2
        (pullLoop st.channels s.default_read_process cids
          (dequeueAllPackets s.queue).1 s.channel_read_process).2
        (fun c _ => rfl)
      have hch : ch ∈ st.channels := List.mem_of_find?_eq_some hf
      have hf2 : st.channels.find? (fun c => c.channel_id == cid)
          = some ch := hf
      have hchid : (ch.channel_id == cid) = true := by
        have := List.find?_some hf2
        simpa using this
      have hfind4 : findChannel (st.channels.map fun c =>
          if c.channel_id == cid then
            { c with messages := c.messages ++ [m] }
          else c) cid
          = some { ch with messages := ch.messages ++ [m] } := by
        have hchid2 : ch.channel_id = cid := by simpa using hchid
        rw [findChannel_appendMessage, hf]
        simp [hchid2]
      have hnil : newMessages ch.messages
          ((crpLookup (pullLoop st.channels s.default_read_process cids
            (dequeueAllPackets s.queue).1 s.channel_read_process).2
            cid).getD s.default_read_process) = [] :=
        newMessages_after_cursorAfter_nil st.channels s.channel_read_process
          s.default_read_process cid ch hf (hsort ch hch) _ hcrp'eq
      have hlt : ((crpLookup (pullLoop st.channels s.default_read_process
          cids (dequeueAllPackets s.queue).1 s.channel_read_process).2
          cid).getD s.default_read_process) < m.id := by
        rw [hcrp'eq]
        exact cursorAfter_lt st.channels s.channel_read_process
          s.default_read_process cid ch m.id hf hd hcrp hmsgs
      have hnew4 : newMessages (ch.messages ++ [m])
          ((crpLookup (pullLoop st.channels s.default_read_process cids
            (dequeueAllPackets s.queue).1 s.channel_read_process).2
            cid).getD s.default_read_process) = [m] := by
        unfold newMessages at hnil ⊢
        rw [List.filter_append, hnil]
        simp [hlt]
      have hgcid : channelCatchupBytes (st.channels.map fun c =>
          if c.channel_id == cid then
            { c with messages := c.messages ++ [m] }
          else c)
          (pullLoop st.channels s.default_read_process cids
            (dequeueAllPackets s.queue).1 s.channel_read_process).2
          s.default_read_process cid = m.data := by
        unfold channelCatchupBytes
        rw [hfind4]
        show ((newMessages (ch.messages ++ [m])
            ((crpLookup (pullLoop st.channels s.default_read_process cids
              (dequeueAllPackets s.queue).1 s.channel_read_process).2
              cid).getD s.default_read_process)).map
          fun x => x.data).flatten = m.data
        rw [hnew4]
        simp
      obtain ⟨l₁, l₂, hsplit⟩ := List.append_of_mem hcid'
      have hdata4 : (pullLoop
          (st.channels.map fun c =>
            if c.channel_id == cid then
              { c with messages := c.messages ++ [m] }
            else c)
          s.default_read_process cids []
          (pullLoop st.channels s.default_read_process cids
            (dequeueAllPackets s.queue).1 s.channel_read_process).2).1
          = (l₁.map (channelCatchupBytes (st.channels.map fun c =>
              if c.channel_id == cid then
                { c with messages := c.messages ++ [m] }
              else c)
              (pullLoop st.channels s.default_read_process cids
                (dequeueAllPackets s.queue).1 s.channel_read_process).2
              s.default_read_process)).flatten
            ++ m.data
            ++ (l₂.map (channelCatchupBytes (st.channels.map fun c =>
              if c.channel_id == cid then
                { c with messages := c.messages ++ [m] }
              else c)
              (pullLoop st.channels s.default_read_process cids
                (dequeueAllPackets s.queue).1 s.channel_read_process).2
              s.default_read_process)).flatten := by
        rw [h1'']
        generalize hK : (pullLoop st.channels s.default_read_process cids
          (dequeueAllPackets s.queue).1 s.channel_read_process).2 = K
        rw [hK] at hgcid
        rw [hsplit]
        simp only [List.map_append, List.map_cons, List.flatten_append,
          List.flatten_cons, hgcid]
        simp [List.append_assoc]
      rw [hdata4] at heq
      exact ⟨_, _, _, by
        simp only [pulledState, updateQSession, appendMessage,
          dequeueAllPackets]
        exact heq⟩

/-- Witness for C2: a one-session, one-channel, one-message state. -/
theorem pull_chat_packets_cursor_contract_witness :
    qGet [QSession.mk 5 1 "u" Option.none [Packet.data [9]] [] 0]
        (UserQuery.userId 1)
      = some (QSession.mk 5 1 "u" Option.none [Packet.data [9]] [] 0)
    ∧ (pullChatPackets
        (ChatState.mk [QSession.mk 5 1 "u" Option.none [Packet.data [9]] [] 0]
          [ChatChannel.mk 1 [ChannelMsg.mk 10 [42]]] [(1, [1])])
        (UserQuery.userId 1)).isSome = true := by
  constructor
  · rfl
  · obtain ⟨crp', h1, -, -, -⟩ := pull_chat_packets_cursor_contract
      (ChatState.mk [QSession.mk 5 1 "u" Option.none [Packet.data [9]] [] 0]
        [ChatChannel.mk 1 [ChannelMsg.mk 10 [42]]] [(1, [1])])
      (UserQuery.userId 1)
      (QSession.mk 5 1 "u" Option.none [Packet.data [9]] [] 0)
      (by rfl) (by decide) (by decide)
      (by
        intro ch hch
        rw [List.mem_singleton] at hch
        subst hch
        simp)
    rw [h1]
    rfl
